import Mathlib

/-!
Shallow embedding of the scheduling and scoring core of pdf-study-typer
(`src/integration/learning_tracker.py`, `src/integration/challenge_generator.py`,
`src/integration/sequential_practice.py`, `src/parser/study_item.py`), with
theorems settling the specification claims about it.

Conventions of the embedding:
* Python floats are modelled as rationals (`ℚ`); all arithmetic in the
  embedded code is exact, so the rational model is faithful to the formulas.
* Timestamps (`datetime.now()` values) are modelled as rationals; the unit
  (days or seconds) is noted at each definition.  `timedelta.days` (whole
  days, floor) is modelled with `Int.floor`.
* A Python value that may be `None` is an `Option`.
* Sources of nondeterminism (`random.shuffle`, `datetime.now()`, the parse
  function `datetime.fromisoformat`) are passed in as explicit parameters.
-/

namespace PdfStudyTyper

/-- `StudyItem` (src/parser/study_item.py), restricted to the fields the
scheduler reads.  `lastStudied` is `none` until the item is first studied;
a stored timestamp is in days. -/
structure StudyItem where
  id : String
  prompt : String
  answer : String
  mastery : ℚ
  importance : ℚ
  lastStudied : Option ℚ
deriving DecidableEq, Repr

/-- `max(0.0, min(1.0, x))` from `update_item_mastery`
(src/integration/learning_tracker.py line 82). -/
def clamp01 (x : ℚ) : ℚ := max 0 (min 1 x)

/-- The unclamped four-tier weighted blend of `update_item_mastery`
(src/integration/learning_tracker.py lines 72-79). -/
def blendMastery (mastery performance : ℚ) : ℚ :=
  if performance ≥ 95/100 then mastery * (7/10) + (3/10) * 1
  else if performance ≥ 8/10 then mastery * (8/10) + (2/10) * (9/10)
  else if performance ≥ 6/10 then mastery * (8/10) + (2/10) * (7/10)
  else mastery * (1/2) + (1/2) * (3/10)

/-- The new mastery value an update installs: the blend, clamped to [0,1]
(src/integration/learning_tracker.py lines 72-82). -/
def newMastery (mastery performance : ℚ) : ℚ :=
  clamp01 (blendMastery mastery performance)

/-- `TypingChallenge._calculate_accuracy`'s match count
(src/integration/challenge_generator.py line 65):
`sum(1 for a, b in zip(user_input, expected) if a == b)`. -/
def countMatches (userInput expected : List Char) : ℕ :=
  ((userInput.zip expected).filter fun p => p.1 = p.2).length

/-- `TypingChallenge._calculate_accuracy`
(src/integration/challenge_generator.py lines 57-66). -/
def calculateAccuracy (expected userInput : List Char) : ℚ :=
  if expected = [] then 1
  else (countMatches userInput expected : ℚ) / (expected.length : ℚ)

/-- Word counting of Python `str.split()` (no separator: split on runs of
whitespace, ignoring leading and trailing whitespace), used by
`TypingChallenge.complete` as `len(self.study_item.answer.split())`
(src/integration/challenge_generator.py line 38).  The accumulator records
whether the scan is currently inside a word. -/
def wordCountAux : List Char → Bool → ℕ
  | [], _ => 0
  | c :: cs, inWord =>
      if c.isWhitespace then wordCountAux cs false
      else (if inWord then 0 else 1) + wordCountAux cs true

/-- `len(answer.split())`: the number of whitespace-delimited words. -/
def wordCount (s : List Char) : ℕ := wordCountAux s false

/-- The words-per-minute computation of `TypingChallenge.complete`
(src/integration/challenge_generator.py lines 36-39): elapsed wall-clock
seconds are converted to minutes and the word count of the expected answer
is divided by them, with `wpm = 0` when the elapsed time is not positive. -/
def completeWpm (answer : List Char) (elapsedSeconds : ℚ) : ℚ :=
  let timeTaken := elapsedSeconds / 60
  let numWords : ℚ := (wordCount answer : ℚ)
  if timeTaken > 0 then numWords / timeTaken else 0

/-- `SpacedRepetitionSystem._calculate_interval`
(src/integration/learning_tracker.py lines 95-109): the ideal review
interval in days as a step function of mastery. -/
def calculateInterval (mastery : ℚ) : ℚ :=
  if mastery < 3/10 then 1
  else if mastery < 1/2 then 3
  else if mastery < 7/10 then 7
  else if mastery < 9/10 then 14
  else 30

/-- The time factor of `SpacedRepetitionSystem.get_next_item`
(src/integration/learning_tracker.py lines 36-45): 10.0 for a never-studied
item, otherwise whole days since last study (Python `timedelta.days`, a
floor) divided by the ideal interval, with a divide-by-zero guard that
falls back to 10.0.  `now` and stored timestamps are in days. -/
def timeFactor (now : ℚ) (item : StudyItem) : ℚ :=
  match item.lastStudied with
  | none => 10
  | some t =>
      let daysSince : ℤ := ⌊now - t⌋
      let ideal := calculateInterval item.mastery
      if ideal > 0 then (daysSince : ℚ) / ideal else 10

/-- The priority of `SpacedRepetitionSystem.get_next_item`
(src/integration/learning_tracker.py line 48). -/
def priority (now : ℚ) (item : StudyItem) : ℚ :=
  timeFactor now item * (1 - item.mastery) * item.importance

/-- The non-random branch of `SpacedRepetitionSystem.get_next_item`
(src/integration/learning_tracker.py lines 26-59): an empty pool yields
`None`; otherwise the items are sorted by priority, descending (Python's
sort is stable, so with `reverse=True` the head of the sorted list is the
first item attaining the maximal priority), and the head is returned.  The
stable sort-then-head is embedded as a left fold that keeps the earlier
item on ties.  The 10% exploration branch (lines 55-56) returns a uniformly
random pool member instead and is outside this definition. -/
def getNextItem (now : ℚ) : List StudyItem → Option StudyItem
  | [] => none
  | it :: its =>
      some (its.foldl (fun best x => if priority now x > priority now best then x else best) it)

/-- A concrete study item used to instantiate theorems with hypotheses. -/
def sampleItem : StudyItem :=
  { id := "a", prompt := "P", answer := "ans", mastery := 0,
    importance := 5, lastStudied := none }

/-- A second concrete study item, already studied once. -/
def sampleItemB : StudyItem :=
  { id := "b", prompt := "Q", answer := "bns", mastery := 1/2,
    importance := 5, lastStudied := some 0 }

/-- An entry of `SequentialPractice.session_results`
(src/integration/sequential_practice.py line 18), restricted to the result
fields the session summary reads. -/
structure PracticeResult where
  itemId : String
  accuracy : ℚ
  wpm : ℚ
deriving DecidableEq, Repr

/-- The mutable state of `SequentialPractice`
(src/integration/sequential_practice.py lines 15-20).  Times are wall-clock
seconds. -/
structure PracticeState where
  studyItems : List StudyItem
  currentIndex : ℕ
  sessionResults : List PracticeResult
  startTime : Option ℚ
  endTime : Option ℚ
deriving DecidableEq, Repr

/-- `SequentialPractice.start_session`
(src/integration/sequential_practice.py lines 26-31). -/
def startPracticeSession (s : PracticeState) (now : ℚ) : PracticeState :=
  { s with
    currentIndex := 0
    sessionResults := []
    startTime := some now
    endTime := none }

/-- `SequentialPractice.get_next_item`
(src/integration/sequential_practice.py lines 67-74): returns the item at
the cursor and advances the cursor past it, or `None` when the cursor is
past the end (which covers the empty pool). -/
def seqGetNextItem (s : PracticeState) : Option StudyItem × PracticeState :=
  if s.currentIndex < s.studyItems.length then
    (s.studyItems[s.currentIndex]?, { s with currentIndex := s.currentIndex + 1 })
  else (none, s)

/-- `SequentialPractice.go_back`
(src/integration/sequential_practice.py lines 110-115): when the cursor
exceeds 1, decrement it by two and re-run `get_next_item`. -/
def goBack (s : PracticeState) : Option StudyItem × PracticeState :=
  if s.currentIndex > 1 then
    seqGetNextItem { s with currentIndex := s.currentIndex - 2 }
  else (none, s)

/-- `SequentialPractice.shuffle_remaining`
(src/integration/sequential_practice.py lines 88-93): replace the suffix
from the cursor on by its image under the permutation `random.shuffle`
chose, passed here as the explicit function `shuffle`. -/
def shuffleRemaining (shuffle : List StudyItem → List StudyItem)
    (s : PracticeState) : PracticeState :=
  if s.currentIndex < s.studyItems.length then
    { s with studyItems :=
        s.studyItems.take s.currentIndex ++ shuffle (s.studyItems.drop s.currentIndex) }
  else s

/-- A concrete two-item practice state used to instantiate theorems. -/
def samplePracticeState : PracticeState :=
  { studyItems := [sampleItem, sampleItemB], currentIndex := 1,
    sessionResults := [], startTime := some 0, endTime := none }

/-- `LearningTracker.session_stats` (src/integration/learning_tracker.py
lines 205-213): the running accumulators of a study session.  Times are
wall-clock seconds. -/
structure SessionStats where
  startTime : Option ℚ
  itemsStudied : ℕ
  correctItems : ℕ
  totalAccuracy : ℚ
  totalWpm : ℚ
deriving DecidableEq, Repr

/-- The zeroed accumulator `LearningTracker.__init__` installs and
`end_session` restores (src/integration/learning_tracker.py lines 207-213
and 261-267). -/
def initialSessionStats : SessionStats :=
  { startTime := none, itemsStudied := 0, correctItems := 0,
    totalAccuracy := 0, totalWpm := 0 }

/-- The summary dictionary `LearningTracker.end_session` returns
(src/integration/learning_tracker.py lines 251-258); the formatted `date`
string is abstracted to the raw end timestamp. -/
structure SessionSummary where
  durationMinutes : ℚ
  itemsStudied : ℕ
  correctItems : ℕ
  accuracyPercentage : ℚ
  averageWpm : ℚ
  date : ℚ
deriving DecidableEq, Repr

/-- `LearningTracker.end_session` (src/integration/learning_tracker.py
lines 240-269): build the summary — duration 0 when no session was started,
the two averages guarded against division by a zero item count — and reset
the accumulator. -/
def endSession (stats : SessionStats) (now : ℚ) : SessionSummary × SessionStats :=
  let duration : ℚ :=
    match stats.startTime with
    | none => 0
    | some t => (now - t) / 60
  let n := stats.itemsStudied
  ({ durationMinutes := duration
     itemsStudied := n
     correctItems := stats.correctItems
     accuracyPercentage := if n > 0 then stats.totalAccuracy / n * 100 else 0
     averageWpm := if n > 0 then stats.totalWpm / n else 0
     date := now },
   initialSessionStats)

/-- The shapes a persisted `last_studied` value can have when
`SpacedRepetitionSystem.get_due_items` reads it
(src/integration/learning_tracker.py lines 157-170): absent (`None`),
an already-converted `datetime`, or a still-raw string. -/
inductive LastStudiedValue where
  | absent
  | stamp (t : ℚ)
  | text (s : String)
deriving DecidableEq, Repr

/-- A study item as `get_due_items` reads it, with the three-valued
`last_studied` field. -/
structure RawStudyItem where
  id : String
  mastery : ℚ
  importance : ℚ
  lastStudied : LastStudiedValue
deriving DecidableEq, Repr

/-- The loop body of `SpacedRepetitionSystem.get_due_items`
(src/integration/learning_tracker.py lines 156-177): never-studied items
are due; a string timestamp is parsed with `datetime.fromisoformat`
(passed in as `parseIso`, `none` modelling the `ValueError`), an
unparseable one counting as never studied and hence due; otherwise the
item is due when the whole days elapsed reach the ideal interval. -/
def isDue (parseIso : String → Option ℚ) (now : ℚ) (item : RawStudyItem) : Bool :=
  match item.lastStudied with
  | .absent => true
  | .text s =>
      match parseIso s with
      | none => true
      | some t => decide ((((⌊now - t⌋ : ℤ) : ℚ)) ≥ calculateInterval item.mastery)
  | .stamp t => decide ((((⌊now - t⌋ : ℤ) : ℚ)) ≥ calculateInterval item.mastery)

/-- `SpacedRepetitionSystem.get_due_items`
(src/integration/learning_tracker.py lines 151-179). -/
def getDueItems (parseIso : String → Option ℚ) (now : ℚ)
    (items : List RawStudyItem) : List RawStudyItem :=
  items.filter (isDue parseIso now)

/-- The ideal-interval step function exactly as the specification words it
(1 day below mastery 0.3, then 3, 7, 14, and 30 days from 0.9 on), to be
compared against the code's `_calculate_interval`. -/
def claimIdealInterval (m : ℚ) : ℚ :=
  if m < 3/10 then 1
  else if m < 1/2 then 3
  else if m < 7/10 then 7
  else if m < 9/10 then 14
  else 30

/-- A concrete never-studied raw item. -/
def sampleRawItem : RawStudyItem :=
  { id := "r", mastery := 0, importance := 5, lastStudied := .absent }

/-- A concrete parse function that always fails, standing in for
`datetime.fromisoformat` on unparseable input. -/
def noParse : String → Option ℚ := fun _ => none

/-- `StudyItemType` (src/parser/study_item.py lines 10-15). -/
inductive StudyItemType where
  | definition
  | keyConcept
  | fillInBlank
  | formula
  | list
deriving DecidableEq, Repr

/-- The `.value` string of each enum member
(src/parser/study_item.py lines 10-15). -/
def StudyItemType.value : StudyItemType → String
  | .definition => "definition"
  | .keyConcept => "key_concept"
  | .fillInBlank => "fill_in_blank"
  | .formula => "formula"
  | .list => "list"

/-- The enum lookup `StudyItemType(value)` used by `from_dict`
(src/parser/study_item.py line 56); `none` models the `ValueError` an
unknown value raises. -/
def StudyItemType.ofValue : String → Option StudyItemType
  | "definition" => some .definition
  | "key_concept" => some .keyConcept
  | "fill_in_blank" => some .fillInBlank
  | "formula" => some .formula
  | "list" => some .list
  | _ => none

/-- A `StudyItem` with every persisted field
(src/parser/study_item.py lines 18-30), parametric in the timestamp type so
that `datetime` stays abstract. -/
structure FullStudyItem (Time : Type) where
  id : String
  prompt : String
  answer : String
  context : String
  itemType : StudyItemType
  importance : ℚ
  mastery : ℚ
  lastStudied : Option Time
  sourceDocument : String

/-- The dictionary `StudyItem.to_dict` produces
(src/parser/study_item.py lines 38-50). -/
structure StudyItemDict where
  id : String
  prompt : String
  answer : String
  context : String
  itemType : String
  importance : ℚ
  mastery : ℚ
  lastStudied : Option String
  sourceDocument : String

/-- `StudyItem.to_dict` (src/parser/study_item.py lines 38-50):
`last_studied.isoformat()` when present, else `None`; `datetime.isoformat`
is passed in as `isoformat`. -/
def toDict {Time : Type} (isoformat : Time → String)
    (item : FullStudyItem Time) : StudyItemDict :=
  { id := item.id
    prompt := item.prompt
    answer := item.answer
    context := item.context
    itemType := item.itemType.value
    importance := item.importance
    mastery := item.mastery
    lastStudied := item.lastStudied.map isoformat
    sourceDocument := item.sourceDocument }

/-- `StudyItem.from_dict` (src/parser/study_item.py lines 52-76): the enum
is looked up from its value (a failed lookup raises, modelled as `none`
overall); `last_studied` goes through Python truthiness — absent or empty
string stays `None` — and then `datetime.fromisoformat`, a parse failure
leaving `None`. -/
def fromDict {Time : Type} (parse : String → Option Time)
    (d : StudyItemDict) : Option (FullStudyItem Time) :=
  match StudyItemType.ofValue d.itemType with
  | none => none
  | some ty =>
      some
        { id := d.id
          prompt := d.prompt
          answer := d.answer
          context := d.context
          itemType := ty
          importance := d.importance
          mastery := d.mastery
          lastStudied :=
            match d.lastStudied with
            | none => none
            | some s => if s = "" then none else parse s
          sourceDocument := d.sourceDocument }

/-- A concrete timestamp formatter over the one-point timestamp type. -/
def unitIso : Unit → String := fun _ => "t"

/-- The concrete parse function inverting `unitIso`. -/
def unitParse : String → Option Unit := fun _ => some ()

/-- A concrete full study item over the one-point timestamp type. -/
def sampleFullItem : FullStudyItem Unit :=
  { id := "f", prompt := "P", answer := "A", context := "ctx",
    itemType := .definition, importance := 5, mastery := 1/2,
    lastStudied := some (), sourceDocument := "doc" }

/-- An entry of `SpacedRepetitionSystem.session_history`
(src/integration/learning_tracker.py lines 86-91). -/
structure SessionHistoryEntry where
  itemId : String
  timestamp : ℚ
  performance : ℚ
  newMasteryValue : ℚ
deriving DecidableEq, Repr

/-- The part of `SpacedRepetitionSystem`'s state `update_item_mastery`
touches (src/integration/learning_tracker.py lines 16-18). -/
structure SRSState where
  studyItems : List StudyItem
  sessionHistory : List SessionHistoryEntry
deriving DecidableEq, Repr

/-- The loop of `update_item_mastery`
(src/integration/learning_tracker.py lines 68-93) over the item list:
rewrite the first item whose id matches (new mastery, `last_studied :=
now`) and report the new mastery; `none` when no item matches. -/
def updateFirstMatch (itemId : String) (performance now : ℚ) :
    List StudyItem → List StudyItem × Option ℚ
  | [] => ([], none)
  | it :: its =>
      if it.id = itemId then
        ({ it with
            mastery := newMastery it.mastery performance
            lastStudied := some now } :: its,
         some (newMastery it.mastery performance))
      else
        let r := updateFirstMatch itemId performance now its
        (it :: r.1, r.2)

/-- `SpacedRepetitionSystem.update_item_mastery`
(src/integration/learning_tracker.py lines 61-93): update the first
matching item and append one session-history entry; a pool without the id
is left untouched (the loop just falls through). -/
def updateItemMastery (itemId : String) (performance now : ℚ)
    (st : SRSState) : SRSState :=
  match updateFirstMatch itemId performance now st.studyItems with
  | (items2, none) => { st with studyItems := items2 }
  | (items2, some m) =>
      { studyItems := items2
        sessionHistory := st.sessionHistory ++
          [{ itemId := itemId, timestamp := now, performance := performance
             newMasteryValue := m : SessionHistoryEntry }] }

/-- The clamp keeps every updated mastery inside the unit interval. -/
lemma newMastery_nonneg (m p : ℚ) : 0 ≤ newMastery m p :=
  le_max_left 0 _

lemma newMastery_le_one (m p : ℚ) : newMastery m p ≤ 1 :=
  max_le (by norm_num) (min_le_left 1 _)

lemma countMatches_self (l : List Char) : countMatches l l = l.length := by
  induction l with
  | nil => rfl
  | cons a l ih =>
      simp only [countMatches, List.zip_cons_cons, List.filter_cons] at *
      simp [ih]

lemma countMatches_le (a b : List Char) : countMatches a b ≤ b.length :=
  calc countMatches a b ≤ (a.zip b).length := List.length_filter_le _ _
    _ ≤ b.length := by rw [List.length_zip]; exact min_le_right _ _

/-- C1: for every mastery value and every performance score (any rational,
including scores below 0 or above 1), `update_item_mastery` installs the
four-tier blend — score ≥ 0.95 gives `mastery*0.7 + 0.3*1.0`, scores in
[0.80, 0.95) give `mastery*0.8 + 0.2*0.9`, scores in [0.60, 0.80) give
`mastery*0.8 + 0.2*0.7`, scores below 0.60 give `mastery*0.5 + 0.5*0.3` —
clamped to [0,1]; hence mastery lies in [0,1] after any nonempty sequence of
updates, and updating mastery 0.5 with score 0.97 yields 0.65. -/
theorem update_mastery_four_tier_blend_clamped :
    (∀ m p : ℚ,
      (95/100 ≤ p → newMastery m p = clamp01 (m * (7/10) + (3/10) * 1)) ∧
      (8/10 ≤ p ∧ p < 95/100 →
        newMastery m p = clamp01 (m * (8/10) + (2/10) * (9/10))) ∧
      (6/10 ≤ p ∧ p < 8/10 →
        newMastery m p = clamp01 (m * (8/10) + (2/10) * (7/10))) ∧
      (p < 6/10 → newMastery m p = clamp01 (m * (1/2) + (1/2) * (3/10))) ∧
      0 ≤ newMastery m p ∧ newMastery m p ≤ 1) ∧
    (∀ (m : ℚ) (ps : List ℚ), ps ≠ [] →
      0 ≤ ps.foldl newMastery m ∧ ps.foldl newMastery m ≤ 1) ∧
    newMastery (1/2) (97/100) = 13/20 := by
  refine ⟨fun m p => ⟨?_, ?_, ?_, ?_, newMastery_nonneg m p, newMastery_le_one m p⟩,
    ?_, by norm_num [newMastery, clamp01, blendMastery]⟩
  · intro h
    unfold newMastery blendMastery
    rw [if_pos (by linarith)]
  · rintro ⟨h1, h2⟩
    unfold newMastery blendMastery
    rw [if_neg (by linarith), if_pos (by linarith)]
  · rintro ⟨h1, h2⟩
    unfold newMastery blendMastery
    rw [if_neg (by linarith), if_neg (by linarith), if_pos (by linarith)]
  · intro h
    unfold newMastery blendMastery
    rw [if_neg (by linarith), if_neg (by linarith), if_neg (by linarith)]
  · intro m ps h
    induction ps generalizing m with
    | nil => exact absurd rfl h
    | cons p ps ih =>
        cases ps with
        | nil =>
            simp only [List.foldl]
            exact ⟨newMastery_nonneg m p, newMastery_le_one m p⟩
        | cons q qs => exact ih (newMastery m p) (by simp)

theorem update_mastery_four_tier_blend_clamped_witness :
    newMastery (1/2) (97/100) = clamp01 ((1/2) * (7/10) + (3/10) * 1) ∧
    0 ≤ List.foldl newMastery (1/2) [97/100] :=
  ⟨(update_mastery_four_tier_blend_clamped.1 (1/2) (97/100)).1 (by norm_num),
   (update_mastery_four_tier_blend_clamped.2.1 (1/2) [97/100] (by simp)).1⟩

/-- C3: the computed accuracy is the number of position-wise character
matches (counted over the zip of the two strings, so up to the shorter
length) divided by the length of the expected string; an empty expected
string gives accuracy 1; typing the expected text exactly gives accuracy 1;
and accuracy always lies in [0,1]. -/
theorem calculate_accuracy_positionwise (expected userInput : List Char) :
    (expected = [] → calculateAccuracy expected userInput = 1) ∧
    (expected ≠ [] → calculateAccuracy expected userInput =
      (countMatches userInput expected : ℚ) / (expected.length : ℚ)) ∧
    calculateAccuracy expected expected = 1 ∧
    0 ≤ calculateAccuracy expected userInput ∧
    calculateAccuracy expected userInput ≤ 1 := by
  refine ⟨fun h => ?_, fun h => ?_, ?_, ?_⟩
  · rw [calculateAccuracy, if_pos h]
  · rw [calculateAccuracy, if_neg h]
  · rw [calculateAccuracy]
    by_cases h : expected = []
    · rw [if_pos h]
    · rw [if_neg h, countMatches_self]
      have hlen : (expected.length : ℚ) ≠ 0 := by
        have := List.length_pos.mpr h
        positivity
      field_simp
  · rw [calculateAccuracy]
    by_cases h : expected = []
    · rw [if_pos h]; norm_num
    · rw [if_neg h]
      have hlen : 0 < (expected.length : ℚ) := by
        exact_mod_cast List.length_pos.mpr h
      constructor
      · positivity
      · rw [div_le_one hlen]
        exact_mod_cast countMatches_le userInput expected

theorem calculate_accuracy_positionwise_witness :
    calculateAccuracy ['a', 'b'] ['a', 'c'] = 1/2 := by
  have h := (calculate_accuracy_positionwise ['a', 'b'] ['a', 'c']).2.1 (by simp)
  rw [h]
  simp [countMatches]

lemma calculateInterval_pos (m : ℚ) : 0 < calculateInterval m := by
  unfold calculateInterval
  split_ifs <;> norm_num

lemma foldl_pick_mem (f : StudyItem → ℚ) :
    ∀ (its : List StudyItem) (it : StudyItem),
      its.foldl (fun best x => if f x > f best then x else best) it ∈ it :: its := by
  intro its
  induction its with
  | nil => intro it; simp
  | cons x xs ih =>
      intro it
      simp only [List.foldl]
      by_cases hc : f x > f it
      · rw [if_pos hc]
        have h := ih x
        rw [List.mem_cons] at h ⊢
        rcases h with h | h
        · right; rw [h]; exact List.mem_cons_self x xs
        · right; exact List.mem_cons_of_mem x h
      · rw [if_neg hc]
        have h := ih it
        rw [List.mem_cons] at h ⊢
        rcases h with h | h
        · left; exact h
        · right; exact List.mem_cons_of_mem x h

lemma foldl_pick_ge (f : StudyItem → ℚ) :
    ∀ (its : List StudyItem) (it : StudyItem), ∀ y ∈ it :: its,
      f y ≤ f (its.foldl (fun best x => if f x > f best then x else best) it) := by
  intro its
  induction its with
  | nil =>
      intro it y hy
      rw [List.mem_singleton] at hy
      simp only [List.foldl]
      rw [hy]
  | cons x xs ih =>
      intro it y hy
      simp only [List.foldl]
      have hb : f it ≤ f (if f x > f it then x else it) ∧
          f x ≤ f (if f x > f it then x else it) := by
        by_cases hc : f x > f it
        · rw [if_pos hc]; exact ⟨le_of_lt hc, le_refl _⟩
        · rw [if_neg hc]; exact ⟨le_refl _, le_of_not_lt hc⟩
      have hstart : f (if f x > f it then x else it) ≤
          f (xs.foldl (fun best x => if f x > f best then x else best)
            (if f x > f it then x else it)) :=
        ih _ _ (List.mem_cons_self _ _)
      rw [List.mem_cons] at hy
      rcases hy with h | h
      · rw [h]; exact le_trans hb.1 hstart
      · rw [List.mem_cons] at h
        rcases h with h | h
        · rw [h]; exact le_trans hb.2 hstart
        · exact ih _ y (List.mem_cons_of_mem _ h)

/-- C2: the non-random branch of `get_next_item` returns `None` exactly when
the item pool is empty; on a non-empty pool it returns a pool member whose
priority `timeFactor * (1 - mastery) * importance` is maximal, where the
time factor is 10.0 for a never-studied item and days-since-last-study
divided by the ideal interval for the item's mastery otherwise (the
divide-by-zero fallback is dead: the interval is always positive). -/
theorem get_next_item_max_priority (now : ℚ) (items : List StudyItem) :
    (getNextItem now items = none ↔ items = []) ∧
    (∀ chosen, getNextItem now items = some chosen →
      chosen ∈ items ∧ ∀ it ∈ items, priority now it ≤ priority now chosen) ∧
    (∀ it : StudyItem, it.lastStudied = none → timeFactor now it = 10) ∧
    (∀ (it : StudyItem) (t : ℚ), it.lastStudied = some t →
      timeFactor now it = ((⌊now - t⌋ : ℤ) : ℚ) / calculateInterval it.mastery) := by
  refine ⟨?_, ?_, ?_, ?_⟩
  · cases items with
    | nil => simp [getNextItem]
    | cons it its => simp [getNextItem]
  · intro chosen hch
    cases items with
    | nil => exact absurd hch (by simp [getNextItem])
    | cons it its =>
        rw [getNextItem, Option.some_inj] at hch
        subst hch
        exact ⟨foldl_pick_mem (priority now) its it, foldl_pick_ge (priority now) its it⟩
  · intro it h
    simp only [timeFactor, h]
  · intro it t h
    simp only [timeFactor, h]
    rw [if_pos (calculateInterval_pos it.mastery)]

theorem get_next_item_max_priority_witness :
    sampleItem ∈ [sampleItem] ∧
    (∀ it ∈ [sampleItem], priority 0 it ≤ priority 0 sampleItem) ∧
    timeFactor 0 sampleItem = 10 :=
  ⟨((get_next_item_max_priority 0 [sampleItem]).2.1 sampleItem rfl).1,
   ((get_next_item_max_priority 0 [sampleItem]).2.1 sampleItem rfl).2,
   (get_next_item_max_priority 0 [sampleItem]).2.2.1 sampleItem rfl⟩

/-- C5: the computed words-per-minute is the whitespace-delimited word count
of the expected answer divided by the elapsed time in minutes, and is 0
when the elapsed time is not positive (total, so no division error); the
answer "hello world" typed in 30 seconds gives 4.0 wpm. -/
theorem complete_wpm_word_rate :
    (∀ (answer : List Char) (elapsedSeconds : ℚ),
      (0 < elapsedSeconds → completeWpm answer elapsedSeconds =
        (wordCount answer : ℚ) / (elapsedSeconds / 60)) ∧
      (elapsedSeconds ≤ 0 → completeWpm answer elapsedSeconds = 0)) ∧
    completeWpm ("hello world".toList) 30 = 4 := by
  refine ⟨fun answer t => ⟨fun h => ?_, fun h => ?_⟩, ?_⟩
  · unfold completeWpm
    rw [if_pos (by positivity)]
  · unfold completeWpm
    rw [if_neg (by intro hc; simp at hc; linarith)]
  · have hw : wordCount ("hello world".toList) = 2 := by decide
    unfold completeWpm
    rw [if_pos (by norm_num), hw]
    norm_num

theorem complete_wpm_word_rate_witness :
    completeWpm ("ab cd ef".toList) 60 =
      (wordCount ("ab cd ef".toList) : ℚ) / (60 / 60) :=
  (complete_wpm_word_rate.1 ("ab cd ef".toList) 60).1 (by norm_num)

/-- C4 counterexample: on the concrete pool `[sampleItem, sampleItemB]`,
after `start_session` and two `get_next_item` calls, `go_back` returns the
FIRST item, which differs from the second item — refuting the claim that
`go_back` returns the second item again. -/
theorem go_back_after_two_nexts_counterexample :
    (goBack (seqGetNextItem (seqGetNextItem
        (startPracticeSession samplePracticeState 0)).2).2).1 = some sampleItem ∧
    sampleItem ≠ sampleItemB := by
  constructor
  · rfl
  · decide

/-- C4 (amended): in sequential mode, for every item list with at least two
items, after `start_session`, calling `get_next_item` twice and then
`go_back` returns the FIRST item again (the item preceding the last one
returned): `go_back` rewinds the cursor by two and re-advances it by one,
a net effect of one step back, leaving the cursor at 1 so that the
following `get_next_item` returns the second item again. -/
theorem go_back_after_two_nexts_returns_first (s : PracticeState) (now : ℚ)
    (h : 2 ≤ s.studyItems.length) :
    ((goBack (seqGetNextItem (seqGetNextItem
        (startPracticeSession s now)).2).2).1 = s.studyItems[0]?) ∧
    ((goBack (seqGetNextItem (seqGetNextItem
        (startPracticeSession s now)).2).2).2.currentIndex = 1) ∧
    ((seqGetNextItem (goBack (seqGetNextItem (seqGetNextItem
        (startPracticeSession s now)).2).2).2).1 = s.studyItems[1]?) := by
  have h0 : 0 < s.studyItems.length := by omega
  have h1 : 1 < s.studyItems.length := by omega
  simp [startPracticeSession, seqGetNextItem, goBack, h0, h1]

theorem go_back_after_two_nexts_returns_first_witness :
    ((goBack (seqGetNextItem (seqGetNextItem
        (startPracticeSession samplePracticeState 0)).2).2).1 =
      samplePracticeState.studyItems[0]?) ∧
    ((goBack (seqGetNextItem (seqGetNextItem
        (startPracticeSession samplePracticeState 0)).2).2).2.currentIndex = 1) ∧
    ((seqGetNextItem (goBack (seqGetNextItem (seqGetNextItem
        (startPracticeSession samplePracticeState 0)).2).2).2).1 =
      samplePracticeState.studyItems[1]?) :=
  go_back_after_two_nexts_returns_first samplePracticeState 0 (by decide)

/-- C9: for every item list, cursor position and permutation chosen by
`random.shuffle`, `shuffle_remaining` leaves the already-visited prefix
(indices before the cursor) unchanged element-for-element, replaces the
unvisited suffix by a permutation of itself, and leaves the cursor and the
recorded session results unchanged. -/
theorem shuffle_remaining_preserves_visited_prefix
    (shuffle : List StudyItem → List StudyItem)
    (hperm : ∀ l, (shuffle l).Perm l) (s : PracticeState) :
    (shuffleRemaining shuffle s).studyItems.take s.currentIndex =
      s.studyItems.take s.currentIndex ∧
    ((shuffleRemaining shuffle s).studyItems.drop s.currentIndex).Perm
      (s.studyItems.drop s.currentIndex) ∧
    (shuffleRemaining shuffle s).currentIndex = s.currentIndex ∧
    (shuffleRemaining shuffle s).sessionResults = s.sessionResults := by
  unfold shuffleRemaining
  by_cases h : s.currentIndex < s.studyItems.length
  · rw [if_pos h]
    have hlen : (s.studyItems.take s.currentIndex).length = s.currentIndex := by
      rw [List.length_take]; omega
    refine ⟨?_, ?_, rfl, rfl⟩
    · exact List.take_left' hlen
    · rw [List.drop_left' hlen]
      exact hperm _
  · rw [if_neg h]
    exact ⟨rfl, List.Perm.refl _, rfl, rfl⟩

theorem shuffle_remaining_preserves_visited_prefix_witness :
    (shuffleRemaining (fun l => l) samplePracticeState).studyItems.take
        samplePracticeState.currentIndex =
      samplePracticeState.studyItems.take samplePracticeState.currentIndex ∧
    ((shuffleRemaining (fun l => l) samplePracticeState).studyItems.drop
        samplePracticeState.currentIndex).Perm
      (samplePracticeState.studyItems.drop samplePracticeState.currentIndex) ∧
    (shuffleRemaining (fun l => l) samplePracticeState).currentIndex =
      samplePracticeState.currentIndex ∧
    (shuffleRemaining (fun l => l) samplePracticeState).sessionResults =
      samplePracticeState.sessionResults :=
  shuffle_remaining_preserves_visited_prefix (fun l => l)
    (fun l => List.Perm.refl l) samplePracticeState

/-- C7: `end_session` called on the pristine accumulator (before any
`start_session`) returns the zeroed summary — duration 0, 0 items studied,
0 correct items, accuracy percentage 0, average wpm 0 — and `end_session`
always resets the accumulator to the pristine state, so a second
`end_session` right after a first one returns the zeroed summary as well;
being a total function, it never raises. -/
theorem end_session_zeroed_and_resets (stats : SessionStats) (now now2 : ℚ) :
    (endSession initialSessionStats now).1 =
      { durationMinutes := 0, itemsStudied := 0, correctItems := 0,
        accuracyPercentage := 0, averageWpm := 0, date := now } ∧
    (endSession stats now).2 = initialSessionStats ∧
    (endSession (endSession stats now).2 now2).1 =
      { durationMinutes := 0, itemsStudied := 0, correctItems := 0,
        accuracyPercentage := 0, averageWpm := 0, date := now2 } :=
  ⟨rfl, rfl, rfl⟩

lemma isDue_iff (parseIso : String → Option ℚ) (now : ℚ) (item : RawStudyItem) :
    isDue parseIso now item = true ↔
      (item.lastStudied = .absent ∨
       (∃ s, item.lastStudied = .text s ∧ parseIso s = none) ∨
       (∃ t, (item.lastStudied = .stamp t ∨
           ∃ s, item.lastStudied = .text s ∧ parseIso s = some t) ∧
         (((⌊now - t⌋ : ℤ) : ℚ)) ≥ claimIdealInterval item.mastery)) := by
  have hint : calculateInterval item.mastery = claimIdealInterval item.mastery := rfl
  cases hls : item.lastStudied with
  | absent => simp [isDue, hls]
  | stamp t => simp [isDue, hls, hint]
  | text s =>
      cases hp : parseIso s with
      | none => simp [isDue, hls, hp]
      | some t => simp [isDue, hls, hp, hint]

/-- C6: an item is in `get_due_items` exactly when it is in the pool and
either was never studied, or carries an unparseable timestamp string
(treated as never studied, not an exception), or the whole days elapsed
since its last study reach the ideal interval of the mastery step function
(1 day below 0.3, 3 days in [0.3,0.5), 7 in [0.5,0.7), 14 in [0.7,0.9),
30 at and above 0.9 — `claimIdealInterval` restates those tiers). -/
theorem get_due_items_iff_due (parseIso : String → Option ℚ) (now : ℚ)
    (items : List RawStudyItem) (item : RawStudyItem) :
    item ∈ getDueItems parseIso now items ↔
      item ∈ items ∧
        (item.lastStudied = .absent ∨
         (∃ s, item.lastStudied = .text s ∧ parseIso s = none) ∨
         (∃ t, (item.lastStudied = .stamp t ∨
             ∃ s, item.lastStudied = .text s ∧ parseIso s = some t) ∧
           (((⌊now - t⌋ : ℤ) : ℚ)) ≥ claimIdealInterval item.mastery)) := by
  rw [getDueItems, List.mem_filter, isDue_iff]

theorem get_due_items_iff_due_witness :
    sampleRawItem ∈ [sampleRawItem] ∧
      (sampleRawItem.lastStudied = .absent ∨
       (∃ s, sampleRawItem.lastStudied = .text s ∧ noParse s = none) ∨
       (∃ t, (sampleRawItem.lastStudied = .stamp t ∨
           ∃ s, sampleRawItem.lastStudied = .text s ∧ noParse s = some t) ∧
         (((⌊(0 : ℚ) - t⌋ : ℤ) : ℚ)) ≥ claimIdealInterval sampleRawItem.mastery)) :=
  (get_due_items_iff_due noParse 0 [sampleRawItem] sampleRawItem).mp
    (by simp [getDueItems, isDue, sampleRawItem])

lemma ofValue_value (t : StudyItemType) : StudyItemType.ofValue t.value = some t := by
  cases t <;> rfl

/-- C8: deserializing the serialized form of a full study item
(`from_dict` after `to_dict`) succeeds and yields an item with identical
mastery, lastStudied (including the absent case) and importance, for every
timestamp type whose `isoformat` is nonempty and inverted by
`fromisoformat` (as Python's `datetime` is). -/
theorem study_item_dict_round_trip {Time : Type} (isoformat : Time → String)
    (parse : String → Option Time)
    (hinv : ∀ t, parse (isoformat t) = some t)
    (hne : ∀ t, isoformat t ≠ "")
    (item : FullStudyItem Time) :
    ∃ item2, fromDict parse (toDict isoformat item) = some item2 ∧
      item2.mastery = item.mastery ∧
      item2.lastStudied = item.lastStudied ∧
      item2.importance = item.importance := by
  have h : fromDict parse (toDict isoformat item) = some item := by
    unfold fromDict toDict
    rw [ofValue_value]
    cases hls : item.lastStudied with
    | none => simp [hls]; rw [← hls]
    | some t => simp [hls, hne t, hinv t]; rw [← hls]
  exact ⟨item, h, rfl, rfl, rfl⟩

theorem study_item_dict_round_trip_witness :
    ∃ item2,
      fromDict unitParse (toDict unitIso sampleFullItem) = some item2 ∧
      item2.mastery = sampleFullItem.mastery ∧
      item2.lastStudied = sampleFullItem.lastStudied ∧
      item2.importance = sampleFullItem.importance :=
  study_item_dict_round_trip unitIso unitParse
    (fun _ => rfl) (fun _ => by simp [unitIso]) sampleFullItem

lemma updateFirstMatch_no_match (itemId : String) (performance now : ℚ) :
    ∀ l : List StudyItem, (∀ it ∈ l, it.id ≠ itemId) →
      updateFirstMatch itemId performance now l = (l, none) := by
  intro l
  induction l with
  | nil => intro h; rfl
  | cons x xs ih =>
      intro h
      rw [updateFirstMatch, if_neg (h x (List.mem_cons_self x xs))]
      rw [ih fun it hit => h it (List.mem_cons_of_mem x hit)]

lemma updateFirstMatch_found (itemId : String) (performance now : ℚ)
    (it : StudyItem) (hit : it.id = itemId) :
    ∀ pre post : List StudyItem, (∀ x ∈ pre, x.id ≠ itemId) →
      updateFirstMatch itemId performance now (pre ++ it :: post) =
        (pre ++ { it with
            mastery := newMastery it.mastery performance
            lastStudied := some now } :: post,
         some (newMastery it.mastery performance)) := by
  intro pre
  induction pre with
  | nil =>
      intro post h
      rw [List.nil_append, updateFirstMatch, if_pos hit, List.nil_append]
  | cons x xs ih =>
      intro post h
      rw [List.cons_append, updateFirstMatch,
        if_neg (h x (List.mem_cons_self x xs)),
        ih post fun y hy => h y (List.mem_cons_of_mem x hy)]
      rfl

/-- C10: `update_item_mastery` rewrites at most the first item whose id
matches — changing only its mastery and lastStudied fields and appending
exactly one session-history entry — and leaves every other item unchanged;
when no item in the pool has the id, the call is a complete no-op (and,
being total, never raises). -/
theorem update_item_mastery_frame (itemId : String) (performance now : ℚ)
    (st : SRSState) :
    ((∀ it ∈ st.studyItems, it.id ≠ itemId) →
      updateItemMastery itemId performance now st = st) ∧
    (∀ pre it post, st.studyItems = pre ++ it :: post →
      (∀ x ∈ pre, x.id ≠ itemId) → it.id = itemId →
      updateItemMastery itemId performance now st =
        { studyItems := pre ++
            { it with
              mastery := newMastery it.mastery performance
              lastStudied := some now } :: post
          sessionHistory := st.sessionHistory ++
            [{ itemId := itemId, timestamp := now, performance := performance
               newMasteryValue := newMastery it.mastery performance :
               SessionHistoryEntry }] }) := by
  constructor
  · intro h
    rw [updateItemMastery, updateFirstMatch_no_match itemId performance now _ h]
  · intro pre it post heq hpre hit
    rw [updateItemMastery, heq,
      updateFirstMatch_found itemId performance now it hit pre post hpre]

theorem update_item_mastery_frame_witness :
    updateItemMastery "a" 1 0
        { studyItems := [sampleItem, sampleItemB], sessionHistory := [] } =
      { studyItems := [] ++
          { sampleItem with
            mastery := newMastery sampleItem.mastery 1
            lastStudied := some 0 } :: [sampleItemB]
        sessionHistory := [] ++
          [{ itemId := "a", timestamp := 0, performance := 1
             newMasteryValue := newMastery sampleItem.mastery 1 :
             SessionHistoryEntry }] } :=
  (update_item_mastery_frame "a" 1 0
      { studyItems := [sampleItem, sampleItemB], sessionHistory := [] }).2
    [] sampleItem [sampleItemB] rfl (by simp) rfl

end PdfStudyTyper
